import Mathlib

/-!
Shallow embedding of the goelf data-synchronization and standings-aggregation
engine (main.go) together with proofs about its specification.

The embedding follows the Go source:
* `Schedule` mirrors the `Schedule` struct (main.go 18-30);
* the store is the sqlite `schedule` table, modelled as a list of rows keyed
  by `statcrewID`; `replaceAll` is the delete-then-insert step of
  `fetchSchedule` (main.go 210-231), `readAll` is `getSchedule`'s
  `SELECT ... ORDER BY date, time` (main.go 304-321);
* the standings aggregator is `getScoreboard` (main.go 363-545): the
  tally loop, the SoS/SoV loop, the grouping by division, the per-division
  sort and the canonical emission order.

Go maps iterate in unspecified (runtime-randomized) order; wherever the code
ranges over a map whose iteration order is observable (building the
per-division slices from `teamStats`), the embedding takes the iteration
order as an explicit parameter, constrained to be a permutation of the map's
keys.  Sorting with `sort.Slice` (which is not guaranteed stable) is
modelled by a sorted permutation produced by insertion sort.
-/

/-- A row of the sqlite `schedule` table / the `Schedule` struct (main.go 18-30). -/
structure Schedule where
  statcrewID : String
  homeTeam : String
  awayTeam : String
  date : String
  time : String
  gameWeek : Int
  location : String
  homeScore : Int
  awayScore : Int
  slug : String
  gameDate : String
deriving Repr, DecidableEq

/-- The `schedule` table: the snapshot store's contents. -/
abbrev Store := List Schedule

/-- `DELETE FROM schedule` (main.go 211). -/
def deleteAll (_st : Store) : Store := []

/-- `REPLACE INTO schedule ... VALUES (...)` (main.go 218, 226): sqlite's
REPLACE removes any row with the same primary key `statcrew_id` and inserts
the new row. -/
def upsert (st : Store) (s : Schedule) : Store :=
  (st.filter (fun r => r.statcrewID ≠ s.statcrewID)) ++ [s]

/-- The store phase of `fetchSchedule` after a successful decode
(main.go 210-231): clear the table, then insert every decoded record
(the insert loop only runs when the decoded list is non-empty). -/
def replaceAll (st : Store) (rs : List Schedule) : Store :=
  if rs.isEmpty then deleteAll st else rs.foldl upsert (deleteAll st)

/-- Generic insertion step for a Bool-valued `le`. -/
def insertSorted (le : α → α → Bool) (a : α) : List α → List α
  | [] => [a]
  | b :: l => if le a b then a :: b :: l else b :: insertSorted le a l

/-- Insertion sort; models an arbitrary sorted permutation, as produced by
`sort.Slice` / sqlite `ORDER BY`, neither of which promises stability. -/
def sortBy (le : α → α → Bool) : List α → List α
  | [] => []
  | a :: l => insertSorted le a (sortBy le l)

/-- Codepoint-lexicographic strict comparison on character lists, modelling
sqlite's BINARY collation of TEXT columns. -/
def charsLt : List Char → List Char → Bool
  | [], [] => false
  | [], _ :: _ => true
  | _ :: _, [] => false
  | a :: as, b :: bs =>
    if a.toNat < b.toNat then true
    else if b.toNat < a.toNat then false
    else charsLt as bs

/-- Codepoint-lexicographic strict comparison on strings. -/
def strLtB (a b : String) : Bool := charsLt a.data b.data

/-- sqlite `ORDER BY date, time` comparison on rows (TEXT columns compare
lexicographically). -/
def dateTimeLE (a b : Schedule) : Bool :=
  strLtB a.date b.date || (decide (a.date = b.date) && !strLtB b.time a.time)

/-- `getSchedule`'s query: `SELECT ... FROM schedule ORDER BY date, time`
(main.go 305). -/
def readAll (st : Store) : List Schedule :=
  sortBy dateTimeLE st

/-- The slice of game data scanned by `getScoreboard` (main.go 386-393). -/
structure GameRow where
  homeTeam : String
  awayTeam : String
  homeScore : Int
  awayScore : Int
deriving Repr, DecidableEq

/-- A game counts as played when either score is positive
(`home_score > 0 OR away_score > 0`, main.go 365 and 396). -/
def played (g : GameRow) : Bool :=
  decide (0 < g.homeScore) || decide (0 < g.awayScore)

/-- `played` on a raw schedule row (the SQL WHERE clause, main.go 365). -/
def playedSched (s : Schedule) : Bool :=
  decide (0 < s.homeScore) || decide (0 < s.awayScore)

/-- Projection of a schedule row onto the columns `getScoreboard` selects. -/
def toRow (s : Schedule) : GameRow :=
  ⟨s.homeTeam, s.awayTeam, s.homeScore, s.awayScore⟩

/-- The rows scanned by `getScoreboard`:
`SELECT home_team, away_team, home_score, away_score FROM schedule
 WHERE home_score > 0 OR away_score > 0 ORDER BY date, time` (main.go 365). -/
def scoreboardRows (st : Store) : List GameRow :=
  (sortBy dateTimeLE (st.filter playedSched)).map toRow

/-- An entry of the `teamStats` map (main.go 381-384). -/
structure Tally where
  wins : Nat
  losses : Nat
deriving Repr, DecidableEq

/-- The `teamStats` map, as an insertion-ordered association list. -/
abbrev TallyMap := List (String × Tally)

/-- Go map read: a missing key yields the zero value. -/
def getTally : TallyMap → String → Tally
  | [], _ => ⟨0, 0⟩
  | (s, w) :: rest, t => if s = t then w else getTally rest t

/-- Go map write: overwrite in place, or append a new key. -/
def setTally : TallyMap → String → Tally → TallyMap
  | [], t, v => [(t, v)]
  | (s, w) :: rest, t, v => if s = t then (s, v) :: rest else (s, w) :: setTally rest t v

/-- The keys of the `teamStats` map. -/
def tallyKeys (m : TallyMap) : List String := m.map (fun e => e.1)

/-- One iteration of the tally loop body for a played game (main.go 405-424):
the higher-scoring side gains a win, the other side gains a loss, a tie
changes nothing.  The two map writes happen in sequence, as in the source. -/
def tallyStep (m : TallyMap) (g : GameRow) : TallyMap :=
  if g.awayScore < g.homeScore then
    let m1 := setTally m g.homeTeam ⟨(getTally m g.homeTeam).wins + 1, (getTally m g.homeTeam).losses⟩
    setTally m1 g.awayTeam ⟨(getTally m1 g.awayTeam).wins, (getTally m1 g.awayTeam).losses + 1⟩
  else if g.homeScore < g.awayScore then
    let m1 := setTally m g.awayTeam ⟨(getTally m g.awayTeam).wins + 1, (getTally m g.awayTeam).losses⟩
    setTally m1 g.homeTeam ⟨(getTally m1 g.homeTeam).wins, (getTally m1 g.homeTeam).losses + 1⟩
  else m

/-- One iteration of the scan over the query rows (main.go 386-425): a played
row is appended to `games` and folded into `teamStats`; anything else is
skipped. -/
def scanStep (acc : List GameRow × TallyMap) (g : GameRow) : List GameRow × TallyMap :=
  if played g then (acc.1 ++ [g], tallyStep acc.2 g) else acc

/-- The `games` slice and the `teamStats` map after the scan loop. -/
def buildState (rows : List GameRow) : List GameRow × TallyMap :=
  rows.foldl scanStep ([], [])

/-- The keys of `teamStats` in insertion order (one valid iteration order). -/
def teamKeys (rows : List GameRow) : List String :=
  tallyKeys (buildState rows).2

/-- The accumulator of the SoS/SoV loop (main.go 433-438). -/
structure SosAcc where
  oppW : Nat
  oppL : Nat
  defW : Nat
  defL : Nat
deriving Repr, DecidableEq

/-- The body of the inner loop over `games` (main.go 440-465): when the team
appears in the game, add the opponent's current tally to the SoS sums, and
additionally to the SoV sums when the team won the game.  The home branch is
checked first, exactly as in the source. -/
def sosStep (stats : TallyMap) (t : String) (a : SosAcc) (g : GameRow) : SosAcc :=
  if g.homeTeam = t then
    let o := getTally stats g.awayTeam
    let a1 : SosAcc := ⟨a.oppW + o.wins, a.oppL + o.losses, a.defW, a.defL⟩
    if g.awayScore < g.homeScore then ⟨a1.oppW, a1.oppL, a1.defW + o.wins, a1.defL + o.losses⟩
    else a1
  else if g.awayTeam = t then
    let o := getTally stats g.homeTeam
    let a1 : SosAcc := ⟨a.oppW + o.wins, a.oppL + o.losses, a.defW, a.defL⟩
    if g.homeScore < g.awayScore then ⟨a1.oppW, a1.oppL, a1.defW + o.wins, a1.defL + o.losses⟩
    else a1
  else a

/-- The SoS/SoV sums for one team (main.go 440-465). -/
def sosOf (stats : TallyMap) (games : List GameRow) (t : String) : SosAcc :=
  games.foldl (sosStep stats t) ⟨0, 0, 0, 0⟩

/-- `teamSoS[teamName]` (main.go 467-473); float64 division modelled in ℚ. -/
def teamSoS (stats : TallyMap) (games : List GameRow) (t : String) : ℚ :=
  let a := sosOf stats games t
  if 0 < a.oppW + a.oppL then (a.oppW : ℚ) / ((a.oppW : ℚ) + (a.oppL : ℚ)) else 0

/-- `teamSoV[teamName]` (main.go 475-481). -/
def teamSoV (stats : TallyMap) (games : List GameRow) (t : String) : ℚ :=
  let a := sosOf stats games t
  if 0 < a.defW + a.defL then (a.defW : ℚ) / ((a.defW : ℚ) + (a.defL : ℚ)) else 0

/-- The `teamDivisions` literal map (main.go 343-361); a missing key yields
the zero value `""`. -/
def teamDivisions (t : String) : String :=
  if t = "Vienna Vikings" then "EAST"
  else if t = "Prague Lions" then "EAST"
  else if t = "Wroclaw Panthers" then "EAST"
  else if t = "Fehérvár Enthroners" then "EAST"
  else if t = "Fehervar Enthroners" then "EAST"
  else if t = "Stuttgart Surge" then "WEST"
  else if t = "Paris Musketeers" then "WEST"
  else if t = "Frankfurt Galaxy" then "WEST"
  else if t = "Cologne Centurions" then "WEST"
  else if t = "Nordic Storm" then "NORTH"
  else if t = "Rhein Fire" then "NORTH"
  else if t = "Berlin Thunder" then "NORTH"
  else if t = "Hamburg Sea Devils" then "NORTH"
  else if t = "Munich Ravens" then "SOUTH"
  else if t = "Madrid Bravos" then "SOUTH"
  else if t = "Raiders Tirol" then "SOUTH"
  else if t = "Helvetic Mercenaries" then "SOUTH"
  else ""

/-- Division lookup with the `"UNKNOWN"` fallback (main.go 488-491). -/
def divisionOf (t : String) : String :=
  if teamDivisions t = "" then "UNKNOWN" else teamDivisions t

/-- The `TeamStanding` struct (main.go 331-340). -/
structure TeamStanding where
  teamName : String
  division : String
  wins : Nat
  losses : Nat
  record : String
  position : Nat
  sos : ℚ
  sov : ℚ
deriving Repr, DecidableEq

/-- The standing built for one team (main.go 493-501); `position` starts at
the zero value and is assigned later. -/
def mkStanding (stats : TallyMap) (games : List GameRow) (t : String) : TeamStanding :=
  let st := getTally stats t
  ⟨t, divisionOf t, st.wins, st.losses,
    toString st.wins ++ "-" ++ toString st.losses, 0,
    teamSoS stats games t, teamSoV stats games t⟩

/-- `divisionStandings[d]`: the standings appended for division `d` while
ranging over `teamStats` in iteration order `ord` (main.go 487-504). -/
def divTeams (ord : List String) (stats : TallyMap) (games : List GameRow) (d : String) :
    List TeamStanding :=
  (ord.map (mkStanding stats games)).filter (fun s => s.division = d)

/-- The `sort.Slice` comparator (main.go 508-513): wins descending, then
losses ascending. -/
def standLess (a b : TeamStanding) : Bool :=
  if a.wins ≠ b.wins then decide (b.wins < a.wins) else decide (a.losses < b.losses)

/-- `a` may precede `b` in the sorted order: the comparator does not demand
`b` before `a`. -/
def standLE (a b : TeamStanding) : Bool := !standLess b a

/-- Overwrite the rank position of a standing. -/
def setPos (s : TeamStanding) (i : Nat) : TeamStanding :=
  ⟨s.teamName, s.division, s.wins, s.losses, s.record, i, s.sos, s.sov⟩

/-- `Position = i + 1` for each index of the sorted slice (main.go 516-518). -/
def assignPos : Nat → List TeamStanding → List TeamStanding
  | _, [] => []
  | i, s :: rest => setPos s i :: assignPos (i + 1) rest

/-- A division's slice after sorting and position assignment
(main.go 506-519). -/
def rankedDiv (ord : List String) (stats : TallyMap) (games : List GameRow) (d : String) :
    List TeamStanding :=
  assignPos 1 (sortBy standLE (divTeams ord stats games d))

/-- The `DivisionData` struct (main.go 522-525). -/
structure DivisionData where
  division : String
  teams : List TeamStanding
deriving Repr, DecidableEq

/-- The fixed emission order (main.go 528). -/
def canonicalDivisions : List String := ["EAST", "WEST", "NORTH", "SOUTH"]

/-- The emitted standings (main.go 527-537): for each canonical division that
has at least one team, emit its ranked slice. -/
def getScoreboardFrom (rows : List GameRow) (ord : List String) : List DivisionData :=
  let s := buildState rows
  canonicalDivisions.filterMap (fun d =>
    if (divTeams ord s.2 s.1 d).isEmpty then none
    else some ⟨d, rankedDiv ord s.2 s.1 d⟩)

/-- `getScoreboard` (main.go 363-545) as a function of the store and of the
iteration order of the `teamStats` map. -/
def getScoreboard (st : Store) (ord : List String) : List DivisionData :=
  getScoreboardFrom (scoreboardRows st) ord

/-- The higher-scoring side of a game, when there is one. -/
def winner (g : GameRow) : Option String :=
  if g.awayScore < g.homeScore then some g.homeTeam
  else if g.homeScore < g.awayScore then some g.awayTeam
  else none

/-- The lower-scoring side of a game, when there is one. -/
def loser (g : GameRow) : Option String :=
  if g.awayScore < g.homeScore then some g.awayTeam
  else if g.homeScore < g.awayScore then some g.homeTeam
  else none

/-- The games among `rows` that the tally loop counts as wins for `t`. -/
def winCount (t : String) (rows : List GameRow) : Nat :=
  rows.countP (fun g => played g && decide (winner g = some t))

/-- The games among `rows` that the tally loop counts as losses for `t`. -/
def lossCount (t : String) (rows : List GameRow) : Nat :=
  rows.countP (fun g => played g && decide (loser g = some t))

/-- The games of the `games` slice in which team `t` took part. -/
def gamesOfTeam (t : String) (games : List GameRow) : List GameRow :=
  games.filter (fun g => decide (g.homeTeam = t) || decide (g.awayTeam = t))

/-- The opponent of `t` in a game, with the home side checked first as in the
SoS/SoV loop. -/
def oppOf (t : String) (g : GameRow) : String :=
  if g.homeTeam = t then g.awayTeam else g.homeTeam

/-- Whether `t`'s side of the game outscored the opponent (home side checked
first, as in the SoS/SoV loop). -/
def wonBy (t : String) (g : GameRow) : Bool :=
  if g.homeTeam = t then decide (g.awayScore < g.homeScore)
  else decide (g.homeScore < g.awayScore)

/-- Sum of the opponents' win counts over all of `t`'s games, following the
wording of the specification. -/
def oppWinSum (stats : TallyMap) (t : String) (games : List GameRow) : Nat :=
  ((gamesOfTeam t games).map (fun g => (getTally stats (oppOf t g)).wins)).sum

/-- Sum of the opponents' loss counts over all of `t`'s games. -/
def oppLossSum (stats : TallyMap) (t : String) (games : List GameRow) : Nat :=
  ((gamesOfTeam t games).map (fun g => (getTally stats (oppOf t g)).losses)).sum

/-- Sum of the opponents' win-plus-loss counts over all of `t`'s games. -/
def oppGameSum (stats : TallyMap) (t : String) (games : List GameRow) : Nat :=
  ((gamesOfTeam t games).map
    (fun g => (getTally stats (oppOf t g)).wins + (getTally stats (oppOf t g)).losses)).sum

/-- Sum of the opponents' win counts over the games `t` won. -/
def defWinSum (stats : TallyMap) (t : String) (games : List GameRow) : Nat :=
  (((gamesOfTeam t games).filter (wonBy t)).map
    (fun g => (getTally stats (oppOf t g)).wins)).sum

/-- Sum of the opponents' loss counts over the games `t` won. -/
def defLossSum (stats : TallyMap) (t : String) (games : List GameRow) : Nat :=
  (((gamesOfTeam t games).filter (wonBy t)).map
    (fun g => (getTally stats (oppOf t g)).losses)).sum

/-- Sum of the opponents' win-plus-loss counts over the games `t` won. -/
def defGameSum (stats : TallyMap) (t : String) (games : List GameRow) : Nat :=
  (((gamesOfTeam t games).filter (wonBy t)).map
    (fun g => (getTally stats (oppOf t g)).wins + (getTally stats (oppOf t g)).losses)).sum

/-- Strength of schedule as the specification words it: opponents' wins over
opponents' games, zero when the denominator is zero. -/
def specSoS (stats : TallyMap) (t : String) (games : List GameRow) : ℚ :=
  if oppGameSum stats t games = 0 then 0
  else (oppWinSum stats t games : ℚ) / (oppGameSum stats t games : ℚ)

/-- Strength of victory as the specification words it: the same ratio
restricted to the games `t` won. -/
def specSoV (stats : TallyMap) (t : String) (games : List GameRow) : ℚ :=
  if defGameSum stats t games = 0 then 0
  else (defWinSum stats t games : ℚ) / (defGameSum stats t games : ℚ)

/-- Forget the rank position of a standing (used to compare outputs up to the
ordering of tied teams). -/
def stripPos (s : TeamStanding) : TeamStanding := setPos s 0

/-- The descending-wins-then-ascending-losses ordering the specification
demands within a division. -/
def rankOrdered (a b : TeamStanding) : Prop :=
  b.wins < a.wins ∨ (a.wins = b.wins ∧ a.losses ≤ b.losses)

/-- A primitive store mutation of the delete-then-insert step of
`fetchSchedule`: either the `DELETE FROM schedule` (main.go 211) or one
`REPLACE INTO schedule` (main.go 226). -/
inductive StoreOp where
  | del : StoreOp
  | ins : Schedule → StoreOp
deriving Repr, DecidableEq

/-- Execute one primitive store mutation. -/
def applyOp (st : Store) : StoreOp → Store
  | StoreOp.del => []
  | StoreOp.ins s => upsert st s

/-- Execute a sequence of primitive store mutations; a failure partway
through the replace leaves the store at `applyOps` of a prefix. -/
def applyOps (st : Store) (ops : List StoreOp) : Store :=
  ops.foldl applyOp st

/-- The sequence of store mutations issued by `fetchSchedule`'s replace
(main.go 210-231): one delete, then one insert per decoded record. -/
def replaceProg (rs : List Schedule) : List StoreOp :=
  StoreOp.del :: rs.map StoreOp.ins

/-- C1 concrete input: one played game between two teams that are absent
from the division mapping. -/
def c1Row : Schedule :=
  ⟨"c1g1", "Foobar FC", "Bazqux FC", "2025-06-01", "15:00", 1, "Pitch", 21, 14, "c1s", "2025-06-01T15:00:00"⟩

/-- C1 concrete store. -/
def c1Store : Store := [c1Row]

/-- C1 concrete iteration order (the insertion order of `teamStats`). -/
def c1Ord : List String := ["Foobar FC", "Bazqux FC"]

/-- C2 concrete input: the record cached before the refresh. -/
def c2rOld : Schedule :=
  ⟨"old1", "Team A", "Team B", "2025-05-01", "12:00", 1, "L1", 7, 3, "s1", "d1"⟩

/-- C2 concrete input: first freshly fetched record. -/
def c2r1 : Schedule :=
  ⟨"new1", "Team C", "Team D", "2025-06-01", "12:00", 2, "L2", 0, 0, "s2", "d2"⟩

/-- C2 concrete input: second freshly fetched record. -/
def c2r2 : Schedule :=
  ⟨"new2", "Team E", "Team F", "2025-06-02", "12:00", 2, "L3", 0, 0, "s3", "d3"⟩

/-- C2 concrete prior store. -/
def c2Old : Store := [c2rOld]

/-- C2 concrete fetched record set. -/
def c2New : List Schedule := [c2r1, c2r2]

/-- C3 concrete input: Vienna beats Stuttgart. -/
def c3g1 : Schedule :=
  ⟨"c3g1", "Vienna Vikings", "Stuttgart Surge", "2025-06-01", "15:00", 1, "V", 10, 3, "a", "x"⟩

/-- C3 concrete input: Prague beats Paris, leaving Vienna and Prague tied at
1-0 in EAST and Stuttgart and Paris tied at 0-1 in WEST. -/
def c3g2 : Schedule :=
  ⟨"c3g2", "Prague Lions", "Paris Musketeers", "2025-06-02", "15:00", 1, "P", 7, 0, "b", "y"⟩

/-- C3 concrete store. -/
def c3Store : Store := [c3g1, c3g2]

/-- C3: one possible iteration order of the `teamStats` map. -/
def c3OrdA : List String :=
  ["Vienna Vikings", "Stuttgart Surge", "Prague Lions", "Paris Musketeers"]

/-- C3: another possible iteration order of the same map. -/
def c3OrdB : List String :=
  ["Prague Lions", "Paris Musketeers", "Vienna Vikings", "Stuttgart Surge"]

/-- C4 witness rows: the specification's round-robin example, A beats B 10-0,
B beats C 7-3, C beats A 14-10. -/
def c4Rows : List GameRow :=
  [⟨"Team Alpha", "Team Beta", 10, 0⟩, ⟨"Team Beta", "Team Gamma", 7, 3⟩,
   ⟨"Team Gamma", "Team Alpha", 14, 10⟩]

/-- C5 witness rows. -/
def c5Rows : List GameRow :=
  [⟨"Vienna Vikings", "Stuttgart Surge", 10, 3⟩, ⟨"Rhein Fire", "Munich Ravens", 0, 0⟩]

/-- C5 witness: an unplayed (0-0) game. -/
def c5Unplayed : GameRow := ⟨"Berlin Thunder", "Madrid Bravos", 0, 0⟩

/-- C6 witness rows. -/
def c6Rows : List GameRow := [⟨"Vienna Vikings", "Stuttgart Surge", 10, 3⟩]

/-- C6 witness: a played game appended to the snapshot. -/
def c6Game : GameRow := ⟨"Stuttgart Surge", "Vienna Vikings", 14, 20⟩

/-- C7 witness rows. -/
def c7Rows : List GameRow :=
  [⟨"Vienna Vikings", "Prague Lions", 10, 3⟩, ⟨"Rhein Fire", "Vienna Vikings", 7, 21⟩]

/-- C7 witness rows, the same games inserted in the opposite order. -/
def c7RowsRev : List GameRow :=
  [⟨"Rhein Fire", "Vienna Vikings", 7, 21⟩, ⟨"Vienna Vikings", "Prague Lions", 10, 3⟩]

/-- C10 witness rows: Vienna's only played game is a tie. -/
def c10Rows : List GameRow :=
  [⟨"Vienna Vikings", "Berlin Thunder", 7, 7⟩, ⟨"Prague Lions", "Rhein Fire", 10, 3⟩]

/-- C3 witness store (distinct from the counterexample store). -/
def c3wStore : Store :=
  [⟨"c3w1", "Munich Ravens", "Madrid Bravos", "2025-06-01", "15:00", 1, "M", 28, 7, "c", "z"⟩]

/-! ### Sorting lemmas -/

theorem insertSorted_perm (le : α → α → Bool) (a : α) (l : List α) :
    List.Perm (insertSorted le a l) (a :: l) := by
  induction l with
  | nil => simp [insertSorted]
  | cons b l ih =>
    simp only [insertSorted]
    split
    · exact List.Perm.refl _
    · exact (ih.cons b).trans (List.Perm.swap a b l)

theorem sortBy_perm (le : α → α → Bool) (l : List α) : List.Perm (sortBy le l) l := by
  induction l with
  | nil => exact List.Perm.refl _
  | cons a l ih => exact (insertSorted_perm le a (sortBy le l)).trans (ih.cons a)

theorem mem_insertSorted (le : α → α → Bool) (a x : α) (l : List α) :
    x ∈ insertSorted le a l ↔ x = a ∨ x ∈ l := by
  rw [(insertSorted_perm le a l).mem_iff]
  simp

theorem mem_sortBy (le : α → α → Bool) (x : α) (l : List α) :
    x ∈ sortBy le l ↔ x ∈ l := (sortBy_perm le l).mem_iff

theorem length_sortBy (le : α → α → Bool) (l : List α) :
    (sortBy le l).length = l.length := (sortBy_perm le l).length_eq

theorem pairwise_insertSorted (le : α → α → Bool)
    (htrans : ∀ a b c, le a b = true → le b c = true → le a c = true)
    (htotal : ∀ a b, le a b = true ∨ le b a = true)
    (a : α) (l : List α) (h : l.Pairwise (fun x y => le x y = true)) :
    (insertSorted le a l).Pairwise (fun x y => le x y = true) := by
  induction l with
  | nil => simp [insertSorted]
  | cons b l ih =>
    rcases List.pairwise_cons.mp h with ⟨hb, hl⟩
    simp only [insertSorted]
    split
    case isTrue hab =>
      refine List.pairwise_cons.mpr ⟨?_, h⟩
      intro x hx
      rcases List.mem_cons.mp hx with rfl | hx
      · exact hab
      · exact htrans a b x hab (hb x hx)
    case isFalse hab =>
      have hba : le b a = true := by
        rcases htotal a b with h1 | h1
        · exact absurd h1 hab
        · exact h1
      refine List.pairwise_cons.mpr ⟨?_, ih hl⟩
      intro x hx
      rcases (mem_insertSorted le a x l).mp hx with rfl | hx
      · exact hba
      · exact hb x hx

theorem pairwise_sortBy (le : α → α → Bool)
    (htrans : ∀ a b c, le a b = true → le b c = true → le a c = true)
    (htotal : ∀ a b, le a b = true ∨ le b a = true)
    (l : List α) : (sortBy le l).Pairwise (fun x y => le x y = true) := by
  induction l with
  | nil => simp [sortBy]
  | cons a l ih => exact pairwise_insertSorted le htrans htotal a (sortBy le l) ih

theorem standLE_trans (a b c : TeamStanding)
    (h1 : standLE a b = true) (h2 : standLE b c = true) : standLE a c = true := by
  simp only [standLE, standLess, Bool.not_eq_true'] at h1 h2 ⊢
  split_ifs at h1 h2 ⊢ <;> simp_all <;> omega

theorem standLE_total (a b : TeamStanding) : standLE a b = true ∨ standLE b a = true := by
  simp only [standLE, standLess, Bool.not_eq_true']
  split_ifs <;> simp_all <;> omega

theorem standLE_rankOrdered (a b : TeamStanding) (h : standLE a b = true) : rankOrdered a b := by
  simp only [standLE, standLess, Bool.not_eq_true'] at h
  unfold rankOrdered
  split_ifs at h
  · simp_all
    omega
  · simp_all

/-! ### Tally map lemmas -/

theorem getTally_setTally (m : TallyMap) (s : String) (v : Tally) (t : String) :
    getTally (setTally m s v) t = if s = t then v else getTally m t := by
  induction m with
  | nil => simp [setTally, getTally]
  | cons e rest ih =>
    obtain ⟨a, w⟩ := e
    simp only [setTally]
    by_cases has : a = s
    · subst has
      by_cases hat : a = t <;> simp_all [getTally]
    · by_cases hat : a = t
      · subst hat
        have hst : ¬ s = a := fun h => has h.symm
        simp [getTally, hst, has]
      · simp [getTally, hat, ih, has]

theorem tallyKeys_setTally (m : TallyMap) (s : String) (v : Tally) :
    tallyKeys (setTally m s v) =
      if s ∈ tallyKeys m then tallyKeys m else tallyKeys m ++ [s] := by
  induction m with
  | nil => simp [setTally, tallyKeys]
  | cons e rest ih =>
    obtain ⟨a, w⟩ := e
    simp only [setTally]
    by_cases has : a = s
    · subst has
      simp [tallyKeys]
    · have hsa : ¬ s = a := fun h => has h.symm
      by_cases hs : s ∈ tallyKeys rest <;> simp_all [tallyKeys, hsa]

theorem mem_tallyKeys_setTally (m : TallyMap) (s : String) (v : Tally) (t : String) :
    t ∈ tallyKeys (setTally m s v) ↔ t ∈ tallyKeys m ∨ t = s := by
  rw [tallyKeys_setTally]
  by_cases hs : s ∈ tallyKeys m
  · simp only [hs, if_true]
    constructor
    · exact fun h => Or.inl h
    · rintro (h | rfl)
      · exact h
      · exact hs
  · simp [hs]

theorem nodup_tallyKeys_setTally (m : TallyMap) (s : String) (v : Tally)
    (h : (tallyKeys m).Nodup) : (tallyKeys (setTally m s v)).Nodup := by
  rw [tallyKeys_setTally]
  by_cases hs : s ∈ tallyKeys m
  · simpa [hs] using h
  · simp [hs, List.nodup_append, h]

theorem getTally_tallyStep (m : TallyMap) (g : GameRow) (t : String) :
    getTally (tallyStep m g) t =
      ⟨(getTally m t).wins + (if winner g = some t then 1 else 0),
       (getTally m t).losses + (if loser g = some t then 1 else 0)⟩ := by
  by_cases h1 : g.awayScore < g.homeScore
  · simp only [tallyStep, winner, loser, h1, if_true]
    by_cases hA : g.awayTeam = t <;> by_cases hH : g.homeTeam = t <;>
      simp_all [getTally_setTally]
  · by_cases h2 : g.homeScore < g.awayScore
    · simp only [tallyStep, winner, loser, h1, h2, if_true, if_false]
      by_cases hA : g.awayTeam = t <;> by_cases hH : g.homeTeam = t <;>
        simp_all [getTally_setTally]
    · simp only [tallyStep, winner, loser, h1, h2, if_false]
      simp

theorem mem_tallyKeys_tallyStep (m : TallyMap) (g : GameRow) (t : String) :
    t ∈ tallyKeys (tallyStep m g) ↔
      t ∈ tallyKeys m ∨ winner g = some t ∨ loser g = some t := by
  by_cases h1 : g.awayScore < g.homeScore
  · simp only [tallyStep, winner, loser, h1, if_true, mem_tallyKeys_setTally,
      Option.some.injEq]
    constructor
    · rintro ((h | rfl) | rfl)
      · exact Or.inl h
      · exact Or.inr (Or.inl rfl)
      · exact Or.inr (Or.inr rfl)
    · rintro (h | rfl | rfl)
      · exact Or.inl (Or.inl h)
      · exact Or.inl (Or.inr rfl)
      · exact Or.inr rfl
  · by_cases h2 : g.homeScore < g.awayScore
    · simp only [tallyStep, winner, loser, h1, h2, if_true, if_false,
        mem_tallyKeys_setTally, Option.some.injEq]
      constructor
      · rintro ((h | rfl) | rfl)
        · exact Or.inl h
        · exact Or.inr (Or.inl rfl)
        · exact Or.inr (Or.inr rfl)
      · rintro (h | rfl | rfl)
        · exact Or.inl (Or.inl h)
        · exact Or.inl (Or.inr rfl)
        · exact Or.inr rfl
    · simp [tallyStep, winner, loser, h1, h2]

theorem nodup_tallyKeys_tallyStep (m : TallyMap) (g : GameRow)
    (h : (tallyKeys m).Nodup) : (tallyKeys (tallyStep m g)).Nodup := by
  unfold tallyStep
  split_ifs
  · exact nodup_tallyKeys_setTally _ _ _ (nodup_tallyKeys_setTally _ _ _ h)
  · exact nodup_tallyKeys_setTally _ _ _ (nodup_tallyKeys_setTally _ _ _ h)
  · exact h

/-! ### Scan loop lemmas -/

theorem foldl_scanStep_fst (rows : List GameRow) (gs : List GameRow) (m : TallyMap) :
    (rows.foldl scanStep (gs, m)).1 = gs ++ rows.filter played := by
  induction rows generalizing gs m with
  | nil => simp
  | cons g rows ih =>
    simp only [List.foldl_cons, List.filter_cons]
    by_cases h : played g
    · simp only [scanStep, h, if_true]
      rw [ih]
      simp
    · simp only [scanStep, h]
      rw [ih]
      simp [h]

theorem buildState_fst (rows : List GameRow) : (buildState rows).1 = rows.filter played := by
  simpa [buildState] using foldl_scanStep_fst rows [] []

theorem getTally_foldl_scanStep (rows : List GameRow) (gs : List GameRow) (m : TallyMap)
    (t : String) :
    getTally (rows.foldl scanStep (gs, m)).2 t =
      ⟨(getTally m t).wins + winCount t rows, (getTally m t).losses + lossCount t rows⟩ := by
  induction rows generalizing gs m with
  | nil => simp [winCount, lossCount]
  | cons g rows ih =>
    simp only [List.foldl_cons]
    by_cases h : played g
    · simp only [scanStep, h, if_true]
      rw [ih, getTally_tallyStep]
      by_cases hw : winner g = some t <;> by_cases hl : loser g = some t <;>
        simp_all [winCount, lossCount, List.countP_cons] <;> omega
    · simp only [scanStep, h]
      rw [if_neg (by simp [h])]
      rw [ih]
      simp_all [winCount, lossCount, List.countP_cons]

theorem getTally_buildState (rows : List GameRow) (t : String) :
    getTally (buildState rows).2 t = ⟨winCount t rows, lossCount t rows⟩ := by
  simpa [buildState, getTally] using getTally_foldl_scanStep rows [] [] t

theorem mem_tallyKeys_foldl_scanStep (rows : List GameRow) (gs : List GameRow) (m : TallyMap)
    (t : String) :
    t ∈ tallyKeys (rows.foldl scanStep (gs, m)).2 ↔
      t ∈ tallyKeys m ∨
        ∃ g, g ∈ rows ∧ played g = true ∧ (winner g = some t ∨ loser g = some t) := by
  induction rows generalizing gs m with
  | nil => simp
  | cons g rows ih =>
    simp only [List.foldl_cons]
    by_cases h : played g
    · simp only [scanStep, h, if_true]
      rw [ih, mem_tallyKeys_tallyStep]
      constructor
      · rintro ((hm | hw) | ⟨g', hg', hp', hwl'⟩)
        · exact Or.inl hm
        · exact Or.inr ⟨g, List.mem_cons_self g rows, h, hw⟩
        · exact Or.inr ⟨g', List.mem_cons_of_mem g hg', hp', hwl'⟩
      · rintro (hm | ⟨g', hg', hp', hwl'⟩)
        · exact Or.inl (Or.inl hm)
        · rcases List.mem_cons.mp hg' with rfl | hg'
          · exact Or.inl (Or.inr hwl')
          · exact Or.inr ⟨g', hg', hp', hwl'⟩
    · simp only [scanStep, h]
      rw [if_neg (by simp [h])]
      rw [ih]
      constructor
      · rintro (hm | ⟨g', hg', hp', hwl'⟩)
        · exact Or.inl hm
        · exact Or.inr ⟨g', List.mem_cons_of_mem g hg', hp', hwl'⟩
      · rintro (hm | ⟨g', hg', hp', hwl'⟩)
        · exact Or.inl hm
        · rcases List.mem_cons.mp hg' with rfl | hg'
          · exact absurd hp' h
          · exact Or.inr ⟨g', hg', hp', hwl'⟩

theorem mem_teamKeys (rows : List GameRow) (t : String) :
    t ∈ teamKeys rows ↔
      ∃ g, g ∈ rows ∧ played g = true ∧ (winner g = some t ∨ loser g = some t) := by
  simpa [teamKeys, buildState, tallyKeys] using mem_tallyKeys_foldl_scanStep rows [] [] t

theorem nodup_tallyKeys_foldl_scanStep (rows : List GameRow) (gs : List GameRow) (m : TallyMap)
    (h : (tallyKeys m).Nodup) :
    (tallyKeys (rows.foldl scanStep (gs, m)).2).Nodup := by
  induction rows generalizing gs m with
  | nil => simpa using h
  | cons g rows ih =>
    simp only [List.foldl_cons]
    by_cases hp : played g
    · simp only [scanStep, hp, if_true]
      exact ih _ _ (nodup_tallyKeys_tallyStep m g h)
    · simp only [scanStep, hp]
      rw [if_neg (by simp [hp])]
      exact ih _ _ h

theorem nodup_teamKeys (rows : List GameRow) : (teamKeys rows).Nodup := by
  simpa [teamKeys, buildState] using
    nodup_tallyKeys_foldl_scanStep rows [] [] (by simp [tallyKeys])

/-! ### SoS/SoV loop lemmas -/

theorem sum_map_add_nat (l : List α) (f g : α → Nat) :
    (l.map (fun x => f x + g x)).sum = (l.map f).sum + (l.map g).sum := by
  induction l with
  | nil => rfl
  | cons a l ih =>
    simp only [List.map_cons, List.sum_cons, ih]
    omega

theorem oppGameSum_eq (stats : TallyMap) (t : String) (games : List GameRow) :
    oppGameSum stats t games = oppWinSum stats t games + oppLossSum stats t games := by
  unfold oppGameSum oppWinSum oppLossSum
  exact sum_map_add_nat _ _ _

theorem defGameSum_eq (stats : TallyMap) (t : String) (games : List GameRow) :
    defGameSum stats t games = defWinSum stats t games + defLossSum stats t games := by
  unfold defGameSum defWinSum defLossSum
  exact sum_map_add_nat _ _ _

theorem sosStep_oppW (stats : TallyMap) (t : String) (a : SosAcc) (g : GameRow) :
    (sosStep stats t a g).oppW =
      a.oppW + (if g.homeTeam = t then (getTally stats g.awayTeam).wins
                else if g.awayTeam = t then (getTally stats g.homeTeam).wins else 0) := by
  unfold sosStep
  split_ifs <;> simp

theorem sosStep_oppL (stats : TallyMap) (t : String) (a : SosAcc) (g : GameRow) :
    (sosStep stats t a g).oppL =
      a.oppL + (if g.homeTeam = t then (getTally stats g.awayTeam).losses
                else if g.awayTeam = t then (getTally stats g.homeTeam).losses else 0) := by
  unfold sosStep
  split_ifs <;> simp

theorem sosStep_defW (stats : TallyMap) (t : String) (a : SosAcc) (g : GameRow) :
    (sosStep stats t a g).defW =
      a.defW + (if g.homeTeam = t then
                  (if g.awayScore < g.homeScore then (getTally stats g.awayTeam).wins else 0)
                else if g.awayTeam = t then
                  (if g.homeScore < g.awayScore then (getTally stats g.homeTeam).wins else 0)
                else 0) := by
  unfold sosStep
  split_ifs <;> simp

theorem sosStep_defL (stats : TallyMap) (t : String) (a : SosAcc) (g : GameRow) :
    (sosStep stats t a g).defL =
      a.defL + (if g.homeTeam = t then
                  (if g.awayScore < g.homeScore then (getTally stats g.awayTeam).losses else 0)
                else if g.awayTeam = t then
                  (if g.homeScore < g.awayScore then (getTally stats g.homeTeam).losses else 0)
                else 0) := by
  unfold sosStep
  split_ifs <;> simp

theorem oppWinSum_cons (stats : TallyMap) (t : String) (g : GameRow) (games : List GameRow) :
    oppWinSum stats t (g :: games) =
      (if g.homeTeam = t then (getTally stats g.awayTeam).wins
       else if g.awayTeam = t then (getTally stats g.homeTeam).wins else 0) +
        oppWinSum stats t games := by
  unfold oppWinSum gamesOfTeam oppOf
  by_cases hH : g.homeTeam = t
  · simp [hH]
  · by_cases hA : g.awayTeam = t <;> simp [hH, hA]

theorem oppLossSum_cons (stats : TallyMap) (t : String) (g : GameRow) (games : List GameRow) :
    oppLossSum stats t (g :: games) =
      (if g.homeTeam = t then (getTally stats g.awayTeam).losses
       else if g.awayTeam = t then (getTally stats g.homeTeam).losses else 0) +
        oppLossSum stats t games := by
  unfold oppLossSum gamesOfTeam oppOf
  by_cases hH : g.homeTeam = t
  · simp [hH]
  · by_cases hA : g.awayTeam = t <;> simp [hH, hA]

theorem defWinSum_cons (stats : TallyMap) (t : String) (g : GameRow) (games : List GameRow) :
    defWinSum stats t (g :: games) =
      (if g.homeTeam = t then
         (if g.awayScore < g.homeScore then (getTally stats g.awayTeam).wins else 0)
       else if g.awayTeam = t then
         (if g.homeScore < g.awayScore then (getTally stats g.homeTeam).wins else 0)
       else 0) + defWinSum stats t games := by
  unfold defWinSum gamesOfTeam oppOf wonBy
  by_cases hH : g.homeTeam = t
  · by_cases hw : g.awayScore < g.homeScore <;> simp [hH, hw]
  · by_cases hA : g.awayTeam = t
    · by_cases hw : g.homeScore < g.awayScore <;> simp [hH, hA, hw]
    · simp [hH, hA]

theorem defLossSum_cons (stats : TallyMap) (t : String) (g : GameRow) (games : List GameRow) :
    defLossSum stats t (g :: games) =
      (if g.homeTeam = t then
         (if g.awayScore < g.homeScore then (getTally stats g.awayTeam).losses else 0)
       else if g.awayTeam = t then
         (if g.homeScore < g.awayScore then (getTally stats g.homeTeam).losses else 0)
       else 0) + defLossSum stats t games := by
  unfold defLossSum gamesOfTeam oppOf wonBy
  by_cases hH : g.homeTeam = t
  · by_cases hw : g.awayScore < g.homeScore <;> simp [hH, hw]
  · by_cases hA : g.awayTeam = t
    · by_cases hw : g.homeScore < g.awayScore <;> simp [hH, hA, hw]
    · simp [hH, hA]

theorem foldl_sosStep (stats : TallyMap) (t : String) (games : List GameRow) (a : SosAcc) :
    games.foldl (sosStep stats t) a =
      ⟨a.oppW + oppWinSum stats t games, a.oppL + oppLossSum stats t games,
       a.defW + defWinSum stats t games, a.defL + defLossSum stats t games⟩ := by
  induction games generalizing a with
  | nil => simp [oppWinSum, oppLossSum, defWinSum, defLossSum, gamesOfTeam]
  | cons g games ih =>
    rw [List.foldl_cons, ih]
    rw [oppWinSum_cons, oppLossSum_cons, defWinSum_cons, defLossSum_cons]
    simp only [SosAcc.mk.injEq]
    refine ⟨?_, ?_, ?_, ?_⟩ <;>
      simp only [sosStep_oppW, sosStep_oppL, sosStep_defW, sosStep_defL] <;>
      split_ifs <;> omega

theorem sosOf_eq (stats : TallyMap) (games : List GameRow) (t : String) :
    sosOf stats games t =
      ⟨oppWinSum stats t games, oppLossSum stats t games,
       defWinSum stats t games, defLossSum stats t games⟩ := by
  simpa [sosOf] using foldl_sosStep stats t games ⟨0, 0, 0, 0⟩

theorem teamSoS_eq_specSoS (stats : TallyMap) (games : List GameRow) (t : String) :
    teamSoS stats games t = specSoS stats t games := by
  simp only [teamSoS, specSoS, sosOf_eq, oppGameSum_eq]
  by_cases h : oppWinSum stats t games + oppLossSum stats t games = 0
  · simp [h]
  · rw [if_pos (by omega), if_neg h]
    push_cast
    rfl

theorem teamSoV_eq_specSoV (stats : TallyMap) (games : List GameRow) (t : String) :
    teamSoV stats games t = specSoV stats t games := by
  simp only [teamSoV, specSoV, sosOf_eq, defGameSum_eq]
  by_cases h : defWinSum stats t games + defLossSum stats t games = 0
  · simp [h]
  · rw [if_pos (by omega), if_neg h]
    push_cast
    rfl

theorem wonBy_winner (t : String) (g : GameRow)
    (hpart : g.homeTeam = t ∨ g.awayTeam = t) (hw : wonBy t g = true) :
    winner g = some t := by
  unfold wonBy at hw
  unfold winner
  by_cases hH : g.homeTeam = t
  · rw [if_pos hH] at hw
    rw [if_pos (of_decide_eq_true hw)]
    exact congrArg some hH
  · rcases hpart with h | hA
    · exact absurd h hH
    · rw [if_neg hH] at hw
      have hlt : g.homeScore < g.awayScore := of_decide_eq_true hw
      rw [if_neg (by omega), if_pos hlt]
      exact congrArg some hA

theorem teamSoV_zero_of_no_wins (rows : List GameRow) (t : String)
    (h : (getTally (buildState rows).2 t).wins = 0) :
    teamSoV (buildState rows).2 (buildState rows).1 t = 0 := by
  have hw : winCount t rows = 0 := by
    rw [getTally_buildState] at h
    exact h
  have hnone := List.countP_eq_zero.mp hw
  have hfil : (gamesOfTeam t (buildState rows).1).filter (wonBy t) = [] := by
    rw [List.filter_eq_nil_iff]
    intro g hg
    have hg' : g ∈ (buildState rows).1 ∧
        (decide (g.homeTeam = t) || decide (g.awayTeam = t)) = true := by
      unfold gamesOfTeam at hg
      exact List.mem_filter.mp hg
    have hgrows : g ∈ rows ∧ played g = true := by
      have hmem := hg'.1
      rw [buildState_fst] at hmem
      exact ⟨(List.mem_filter.mp hmem).1, (List.mem_filter.mp hmem).2⟩
    intro hwon
    have hpart : g.homeTeam = t ∨ g.awayTeam = t := by
      have h2 := hg'.2
      simp only [Bool.or_eq_true, decide_eq_true_eq] at h2
      exact h2
    have hwin := wonBy_winner t g hpart hwon
    have hcontra := hnone g hgrows.1
    simp [hgrows.2, hwin] at hcontra
  have hdw : defWinSum (buildState rows).2 t (buildState rows).1 = 0 := by
    unfold defWinSum
    rw [hfil]
    rfl
  have hdl : defLossSum (buildState rows).2 t (buildState rows).1 = 0 := by
    unfold defLossSum
    rw [hfil]
    rfl
  simp only [teamSoV, sosOf_eq]
  simp [hdw, hdl]

/-- C4: for every team with at least one win/loss tally, SoS equals the sum
of each opponent's win count across all of that team's played games divided
by the sum of those opponents' win-plus-loss counts across the same games
(zero when that denominator is zero), and SoV equals the same ratio
restricted to the games the team won (zero when the team has no wins). -/
theorem C4_sos_sov_formulas (rows : List GameRow) (t : String)
    (_h : t ∈ teamKeys rows) :
    teamSoS (buildState rows).2 (buildState rows).1 t =
      specSoS (buildState rows).2 t (buildState rows).1 ∧
    teamSoV (buildState rows).2 (buildState rows).1 t =
      specSoV (buildState rows).2 t (buildState rows).1 ∧
    ((getTally (buildState rows).2 t).wins = 0 →
      teamSoV (buildState rows).2 (buildState rows).1 t = 0) :=
  ⟨teamSoS_eq_specSoS _ _ _, teamSoV_eq_specSoV _ _ _, teamSoV_zero_of_no_wins rows t⟩

/-- C4 witness: the specification's round-robin example, instantiated at
team Alpha. -/
theorem C4_sos_sov_formulas_witness :
    "Team Alpha" ∈ teamKeys c4Rows ∧
    (teamSoS (buildState c4Rows).2 (buildState c4Rows).1 "Team Alpha" =
        specSoS (buildState c4Rows).2 "Team Alpha" (buildState c4Rows).1 ∧
      teamSoV (buildState c4Rows).2 (buildState c4Rows).1 "Team Alpha" =
        specSoV (buildState c4Rows).2 "Team Alpha" (buildState c4Rows).1 ∧
      ((getTally (buildState c4Rows).2 "Team Alpha").wins = 0 →
        teamSoV (buildState c4Rows).2 (buildState c4Rows).1 "Team Alpha" = 0)) :=
  ⟨by decide, C4_sos_sov_formulas c4Rows "Team Alpha" (by decide)⟩

/-! ### Played-game filtering and per-game tally updates -/

theorem scanStep_of_played (acc : List GameRow × TallyMap) (g : GameRow)
    (hp : played g = true) : scanStep acc g = (acc.1 ++ [g], tallyStep acc.2 g) := by
  unfold scanStep
  rw [if_pos hp]

theorem scanStep_of_not_played (acc : List GameRow × TallyMap) (g : GameRow)
    (hp : played g = false) : scanStep acc g = acc := by
  unfold scanStep
  rw [if_neg (by simp [hp])]

theorem buildState_snd_append (rows : List GameRow) (g : GameRow) (hp : played g = true) :
    (buildState (rows ++ [g])).2 = tallyStep (buildState rows).2 g := by
  unfold buildState
  rw [List.foldl_append, List.foldl_cons, List.foldl_nil, scanStep_of_played _ _ hp]

/-- C5: a game contributes to the tally scan and to the `games` slice used by
the SoS/SoV sums exactly when one of its scores is positive: the `games`
slice is the played-filter of the rows, an unplayed (for instance 0-0) game
can be dropped anywhere without changing the scan's outcome, and a played
game enters the `games` slice and has its tally step applied. -/
theorem C5_played_filter (rows r1 r2 : List GameRow) (g g' : GameRow)
    (hp : played g = false) (hp' : played g' = true) :
    (buildState rows).1 = rows.filter played ∧
    buildState (r1 ++ g :: r2) = buildState (r1 ++ r2) ∧
    g' ∈ (buildState (r1 ++ g' :: r2)).1 ∧
    (buildState (r1 ++ [g'])).2 = tallyStep (buildState r1).2 g' := by
  refine ⟨buildState_fst rows, ?_, ?_, buildState_snd_append r1 g' hp'⟩
  · unfold buildState
    rw [List.foldl_append, List.foldl_append, List.foldl_cons, scanStep_of_not_played _ _ hp]
  · rw [buildState_fst, List.filter_append, List.filter_cons]
    refine List.mem_append.mpr (Or.inr ?_)
    rw [if_pos hp']
    exact List.mem_cons_self _ _

/-- C5 witness: a 0-0 game is dropped, a 10-3 game is kept. -/
theorem C5_played_filter_witness :
    (played c5Unplayed = false ∧ played (⟨"Vienna Vikings", "Stuttgart Surge", 10, 3⟩ : GameRow) = true) ∧
    ((buildState c5Rows).1 = c5Rows.filter played ∧
      buildState (c5Rows ++ c5Unplayed :: []) = buildState (c5Rows ++ []) ∧
      (⟨"Vienna Vikings", "Stuttgart Surge", 10, 3⟩ : GameRow) ∈
        (buildState (c5Rows ++ (⟨"Vienna Vikings", "Stuttgart Surge", 10, 3⟩ : GameRow) :: [])).1 ∧
      (buildState (c5Rows ++ [⟨"Vienna Vikings", "Stuttgart Surge", 10, 3⟩])).2 =
        tallyStep (buildState c5Rows).2 ⟨"Vienna Vikings", "Stuttgart Surge", 10, 3⟩) :=
  ⟨⟨by decide, by decide⟩,
    C5_played_filter c5Rows c5Rows [] c5Unplayed ⟨"Vienna Vikings", "Stuttgart Surge", 10, 3⟩
      (by decide) (by decide)⟩

/-- C6: for a played game appended to the snapshot, the higher-scoring side's
win count goes up by one and the other side's loss count goes up by one,
while every other team's wins and losses are unchanged; a played tie (equal
nonzero scores) leaves the whole tally map unchanged. -/
theorem C6_tally_increments (rows : List GameRow) (g : GameRow) (hp : played g = true) :
    (g.awayScore < g.homeScore →
      (getTally (buildState (rows ++ [g])).2 g.homeTeam).wins
          = (getTally (buildState rows).2 g.homeTeam).wins + 1 ∧
      (getTally (buildState (rows ++ [g])).2 g.awayTeam).losses
          = (getTally (buildState rows).2 g.awayTeam).losses + 1 ∧
      (∀ t, t ≠ g.homeTeam →
        (getTally (buildState (rows ++ [g])).2 t).wins
            = (getTally (buildState rows).2 t).wins) ∧
      (∀ t, t ≠ g.awayTeam →
        (getTally (buildState (rows ++ [g])).2 t).losses
            = (getTally (buildState rows).2 t).losses)) ∧
    (g.homeScore < g.awayScore →
      (getTally (buildState (rows ++ [g])).2 g.awayTeam).wins
          = (getTally (buildState rows).2 g.awayTeam).wins + 1 ∧
      (getTally (buildState (rows ++ [g])).2 g.homeTeam).losses
          = (getTally (buildState rows).2 g.homeTeam).losses + 1 ∧
      (∀ t, t ≠ g.awayTeam →
        (getTally (buildState (rows ++ [g])).2 t).wins
            = (getTally (buildState rows).2 t).wins) ∧
      (∀ t, t ≠ g.homeTeam →
        (getTally (buildState (rows ++ [g])).2 t).losses
            = (getTally (buildState rows).2 t).losses)) ∧
    (g.homeScore = g.awayScore → (buildState (rows ++ [g])).2 = (buildState rows).2) := by
  have hstep := buildState_snd_append rows g hp
  refine ⟨?_, ?_, ?_⟩
  · intro hlt
    have hwin : winner g = some g.homeTeam := by
      unfold winner
      rw [if_pos hlt]
    have hlos : loser g = some g.awayTeam := by
      unfold loser
      rw [if_pos hlt]
    refine ⟨?_, ?_, ?_, ?_⟩
    · rw [hstep, getTally_tallyStep, hwin]
      simp
    · rw [hstep, getTally_tallyStep, hlos]
      simp
    · intro t ht
      have hne : ¬ winner g = some t := by
        rw [hwin]
        simp only [Option.some.injEq]
        exact fun h => ht h.symm
      rw [hstep, getTally_tallyStep, if_neg hne]
      rfl
    · intro t ht
      have hne : ¬ loser g = some t := by
        rw [hlos]
        simp only [Option.some.injEq]
        exact fun h => ht h.symm
      rw [hstep, getTally_tallyStep, if_neg hne]
      rfl
  · intro hlt
    have hnlt : ¬ g.awayScore < g.homeScore := by omega
    have hwin : winner g = some g.awayTeam := by
      unfold winner
      rw [if_neg hnlt, if_pos hlt]
    have hlos : loser g = some g.homeTeam := by
      unfold loser
      rw [if_neg hnlt, if_pos hlt]
    refine ⟨?_, ?_, ?_, ?_⟩
    · rw [hstep, getTally_tallyStep, hwin]
      simp
    · rw [hstep, getTally_tallyStep, hlos]
      simp
    · intro t ht
      have hne : ¬ winner g = some t := by
        rw [hwin]
        simp only [Option.some.injEq]
        exact fun h => ht h.symm
      rw [hstep, getTally_tallyStep, if_neg hne]
      rfl
    · intro t ht
      have hne : ¬ loser g = some t := by
        rw [hlos]
        simp only [Option.some.injEq]
        exact fun h => ht h.symm
      rw [hstep, getTally_tallyStep, if_neg hne]
      rfl
  · intro heq
    rw [hstep]
    unfold tallyStep
    rw [if_neg (by omega), if_neg (by omega)]

/-- C6 witness: the appended game is played (away side wins 20-14). -/
theorem C6_tally_increments_witness :
    played c6Game = true ∧
    ((c6Game.awayScore < c6Game.homeScore →
      (getTally (buildState (c6Rows ++ [c6Game])).2 c6Game.homeTeam).wins
          = (getTally (buildState c6Rows).2 c6Game.homeTeam).wins + 1 ∧
      (getTally (buildState (c6Rows ++ [c6Game])).2 c6Game.awayTeam).losses
          = (getTally (buildState c6Rows).2 c6Game.awayTeam).losses + 1 ∧
      (∀ t, t ≠ c6Game.homeTeam →
        (getTally (buildState (c6Rows ++ [c6Game])).2 t).wins
            = (getTally (buildState c6Rows).2 t).wins) ∧
      (∀ t, t ≠ c6Game.awayTeam →
        (getTally (buildState (c6Rows ++ [c6Game])).2 t).losses
            = (getTally (buildState c6Rows).2 t).losses)) ∧
    (c6Game.homeScore < c6Game.awayScore →
      (getTally (buildState (c6Rows ++ [c6Game])).2 c6Game.awayTeam).wins
          = (getTally (buildState c6Rows).2 c6Game.awayTeam).wins + 1 ∧
      (getTally (buildState (c6Rows ++ [c6Game])).2 c6Game.homeTeam).losses
          = (getTally (buildState c6Rows).2 c6Game.homeTeam).losses + 1 ∧
      (∀ t, t ≠ c6Game.awayTeam →
        (getTally (buildState (c6Rows ++ [c6Game])).2 t).wins
            = (getTally (buildState c6Rows).2 t).wins) ∧
      (∀ t, t ≠ c6Game.homeTeam →
        (getTally (buildState (c6Rows ++ [c6Game])).2 t).losses
            = (getTally (buildState c6Rows).2 t).losses)) ∧
    (c6Game.homeScore = c6Game.awayScore →
      (buildState (c6Rows ++ [c6Game])).2 = (buildState c6Rows).2)) :=
  ⟨by decide, C6_tally_increments c6Rows c6Game (by decide)⟩

/-! ### Store replace lemmas -/

theorem replaceAll_eq_foldl (st : Store) (rs : List Schedule) :
    replaceAll st rs = rs.foldl upsert [] := by
  unfold replaceAll deleteAll
  cases rs with
  | nil => simp
  | cons r rs => simp

theorem applyOps_replaceProg_take (st : Store) (rs : List Schedule) (j : Nat) :
    applyOps st ((replaceProg rs).take (j + 1)) = replaceAll st (rs.take j) := by
  rw [replaceAll_eq_foldl]
  unfold replaceProg applyOps
  rw [List.take_succ_cons, List.foldl_cons, ← List.map_take, List.foldl_map]
  rfl

theorem applyOps_replaceProg (st : Store) (rs : List Schedule) :
    applyOps st (replaceProg rs) = replaceAll st rs := by
  rw [replaceAll_eq_foldl]
  unfold replaceProg applyOps
  rw [List.foldl_cons, List.foldl_map]
  rfl

/-- C2 (amended): the replace is a bare delete followed by one insert per
record, not a transaction.  A failure before the delete leaves the prior
snapshot; but once the delete has run, stopping after `j` inserts leaves the
store holding exactly the first `j` new records — the prior snapshot is not
retained, and for `0 < j < rs.length` the state is neither the old nor the
new snapshot. -/
theorem C2_partial_replace_state (st : Store) (rs : List Schedule) (j : Nat) :
    applyOps st ((replaceProg rs).take 0) = st ∧
    applyOps st ((replaceProg rs).take (j + 1)) = replaceAll st (rs.take j) ∧
    applyOps st (replaceProg rs) = replaceAll st rs :=
  ⟨rfl, applyOps_replaceProg_take st rs j, applyOps_replaceProg st rs⟩

/-- C2 counterexample: with one cached record and two fetched records, the
state after the delete and the first insert (a failure point before the
second insert) has the old record already gone and the second new record not
yet installed — an observable state that is neither the old snapshot nor the
new one, refuting atomicity. -/
theorem C2_partial_replace_counterexample :
    applyOps c2Old ((replaceProg c2New).take 2) = [c2r1] ∧
    c2rOld ∈ c2Old ∧
    c2rOld ∉ applyOps c2Old ((replaceProg c2New).take 2) ∧
    c2r2 ∈ applyOps c2Old (replaceProg c2New) ∧
    c2r2 ∉ applyOps c2Old ((replaceProg c2New).take 2) ∧
    applyOps c2Old ((replaceProg c2New).take 2) ≠ c2Old ∧
    applyOps c2Old ((replaceProg c2New).take 2) ≠ applyOps c2Old (replaceProg c2New) := by
  decide

/-- C8: performing the delete-then-insert replace twice with the same record
set leaves `readAll` (ordered by date then time) identical to performing it
once, because the replace discards the prior contents unconditionally. -/
theorem C8_replaceAll_idempotent (st : Store) (rs : List Schedule) :
    readAll (replaceAll (replaceAll st rs) rs) = readAll (replaceAll st rs) := by
  rw [replaceAll_eq_foldl (replaceAll st rs) rs, replaceAll_eq_foldl st rs]

/-- C9: when the fetched feed decodes to an empty record list, the replace
deletes every cached record and inserts nothing, leaving the store empty
whatever it held before. -/
theorem C9_empty_fetch_clears (st : Store) :
    replaceAll st [] = [] ∧ readAll (replaceAll st []) = [] :=
  ⟨rfl, rfl⟩

/-! ### Ranking and division lemmas -/

theorem length_assignPos (i : Nat) (l : List TeamStanding) :
    (assignPos i l).length = l.length := by
  induction l generalizing i with
  | nil => rfl
  | cons s rest ih => simp [assignPos, ih]

theorem map_stripPos_assignPos (i : Nat) (l : List TeamStanding) :
    (assignPos i l).map stripPos = l.map stripPos := by
  induction l generalizing i with
  | nil => rfl
  | cons s rest ih => simp [assignPos, ih, stripPos, setPos]

theorem map_position_assignPos (i : Nat) (l : List TeamStanding) :
    (assignPos i l).map (fun s => s.position) = List.range' i l.length := by
  induction l generalizing i with
  | nil => rfl
  | cons s rest ih => simp [assignPos, ih, setPos, List.range']

theorem mem_assignPos (i : Nat) (l : List TeamStanding) (y : TeamStanding)
    (hy : y ∈ assignPos i l) : ∃ x, x ∈ l ∧ ∃ j, y = setPos x j ∧ i ≤ j := by
  induction l generalizing i with
  | nil => simp [assignPos] at hy
  | cons s rest ih =>
    simp only [assignPos, List.mem_cons] at hy
    rcases hy with rfl | hy
    · exact ⟨s, List.mem_cons_self _ _, i, rfl, Nat.le_refl i⟩
    · rcases ih (i + 1) hy with ⟨x, hx, j, hj, hij⟩
      exact ⟨x, List.mem_cons_of_mem _ hx, j, hj, by omega⟩

theorem exists_mem_assignPos (i : Nat) (l : List TeamStanding) (x : TeamStanding)
    (hx : x ∈ l) : ∃ s, s ∈ assignPos i l ∧ s.teamName = x.teamName ∧
      s.division = x.division ∧ i ≤ s.position := by
  induction l generalizing i with
  | nil => simp at hx
  | cons a rest ih =>
    rcases List.mem_cons.mp hx with rfl | hx
    · exact ⟨setPos x i, List.mem_cons_self _ _, rfl, rfl, by simp [setPos]⟩
    · rcases ih (i + 1) hx with ⟨s, hs, h1, h2, h3⟩
      exact ⟨s, List.mem_cons_of_mem _ hs, h1, h2, by omega⟩

theorem rankOrdered_setPos (a b : TeamStanding) (i j : Nat) (h : rankOrdered a b) :
    rankOrdered (setPos a i) (setPos b j) := h

theorem pairwise_assignPos (i : Nat) (l : List TeamStanding)
    (h : l.Pairwise rankOrdered) : (assignPos i l).Pairwise rankOrdered := by
  induction l generalizing i with
  | nil => simp [assignPos]
  | cons s rest ih =>
    rcases List.pairwise_cons.mp h with ⟨hs, hrest⟩
    refine List.pairwise_cons.mpr ⟨?_, ih (i + 1) hrest⟩
    intro y hy
    rcases mem_assignPos _ _ _ hy with ⟨x, hx, j, rfl, _⟩
    exact rankOrdered_setPos s x i j (hs x hx)

theorem mem_divTeams (ord : List String) (stats : TallyMap) (games : List GameRow)
    (d : String) (s : TeamStanding) :
    s ∈ divTeams ord stats games d ↔
      ∃ u, u ∈ ord ∧ s = mkStanding stats games u ∧ divisionOf u = d := by
  unfold divTeams
  rw [List.mem_filter, List.mem_map]
  constructor
  · rintro ⟨⟨u, hu, rfl⟩, hd⟩
    refine ⟨u, hu, rfl, ?_⟩
    simpa [mkStanding] using hd
  · rintro ⟨u, hu, rfl, hd⟩
    exact ⟨⟨u, hu, rfl⟩, by simpa [mkStanding] using hd⟩

theorem pairwise_rankedDiv (ord : List String) (stats : TallyMap) (games : List GameRow)
    (d : String) : (rankedDiv ord stats games d).Pairwise rankOrdered := by
  unfold rankedDiv
  refine pairwise_assignPos _ _ ?_
  have hp := pairwise_sortBy standLE standLE_trans standLE_total (divTeams ord stats games d)
  exact hp.imp (fun h => standLE_rankOrdered _ _ h)

theorem map_position_rankedDiv (ord : List String) (stats : TallyMap) (games : List GameRow)
    (d : String) :
    (rankedDiv ord stats games d).map (fun s => s.position) =
      List.range' 1 (rankedDiv ord stats games d).length := by
  unfold rankedDiv
  rw [map_position_assignPos, length_assignPos]

theorem mem_rankedDiv (ord : List String) (stats : TallyMap) (games : List GameRow)
    (d : String) (y : TeamStanding) (hy : y ∈ rankedDiv ord stats games d) :
    ∃ u, u ∈ ord ∧ y.teamName = u ∧ y.division = divisionOf u ∧ divisionOf u = d ∧
      1 ≤ y.position := by
  unfold rankedDiv at hy
  rcases mem_assignPos _ _ _ hy with ⟨x, hx, j, rfl, hj⟩
  rw [mem_sortBy] at hx
  rcases (mem_divTeams _ _ _ _ _).mp hx with ⟨u, hu, rfl, hd⟩
  refine ⟨u, hu, rfl, rfl, hd, by simpa [setPos] using hj⟩

theorem exists_mem_rankedDiv (ord : List String) (stats : TallyMap) (games : List GameRow)
    (u : String) (hu : u ∈ ord) :
    ∃ s, s ∈ rankedDiv ord stats games (divisionOf u) ∧ s.teamName = u ∧ 1 ≤ s.position := by
  unfold rankedDiv
  have hx : mkStanding stats games u ∈ divTeams ord stats games (divisionOf u) :=
    (mem_divTeams _ _ _ _ _).mpr ⟨u, hu, rfl, rfl⟩
  have hx' : mkStanding stats games u ∈ sortBy standLE (divTeams ord stats games (divisionOf u)) :=
    (mem_sortBy _ _ _).mpr hx
  rcases exists_mem_assignPos 1 _ _ hx' with ⟨s, hs, h1, h2, h3⟩
  refine ⟨s, hs, ?_, h3⟩
  rw [h1]
  rfl

theorem mem_getScoreboardFrom (rows : List GameRow) (ord : List String) (dd : DivisionData) :
    dd ∈ getScoreboardFrom rows ord ↔
      ∃ d, d ∈ canonicalDivisions ∧
        (divTeams ord (buildState rows).2 (buildState rows).1 d).isEmpty = false ∧
        dd = ⟨d, rankedDiv ord (buildState rows).2 (buildState rows).1 d⟩ := by
  simp only [getScoreboardFrom, List.mem_filterMap]
  constructor
  · rintro ⟨d, hd, hf⟩
    by_cases he : (divTeams ord (buildState rows).2 (buildState rows).1 d).isEmpty
    · rw [if_pos he] at hf
      exact absurd hf (by simp)
    · rw [if_neg he] at hf
      have hdd : (⟨d, rankedDiv ord (buildState rows).2 (buildState rows).1 d⟩ : DivisionData) = dd := by
        simpa using hf
      exact ⟨d, hd, by simpa using he, hdd.symm⟩
  · rintro ⟨d, hd, he, rfl⟩
    refine ⟨d, hd, ?_⟩
    rw [if_neg (by simp [he])]

theorem map_division_filterMap (stats : TallyMap) (games : List GameRow) (ord : List String)
    (ds : List String) :
    ((ds.filterMap (fun d =>
        if (divTeams ord stats games d).isEmpty then none
        else some (⟨d, rankedDiv ord stats games d⟩ : DivisionData))).map
          (fun dd => dd.division)) =
      ds.filter (fun d => !(divTeams ord stats games d).isEmpty) := by
  induction ds with
  | nil => rfl
  | cons d ds ih =>
    rw [List.filterMap_cons, List.filter_cons]
    by_cases h : (divTeams ord stats games d).isEmpty
    · rw [if_pos h, if_neg (by simp [h])]
      exact ih
    · rw [if_neg h, if_pos (by simp [h]), List.map_cons, ih]

theorem map_division_getScoreboardFrom (rows : List GameRow) (ord : List String) :
    (getScoreboardFrom rows ord).map (fun dd => dd.division) =
      canonicalDivisions.filter
        (fun d => !(divTeams ord (buildState rows).2 (buildState rows).1 d).isEmpty) := by
  simp only [getScoreboardFrom]
  exact map_division_filterMap _ _ _ _

/-! ### Invariance of the aggregation under permutations -/

theorem getTally_buildState_perm (rows1 rows2 : List GameRow) (h : rows1.Perm rows2)
    (t : String) : getTally (buildState rows1).2 t = getTally (buildState rows2).2 t := by
  rw [getTally_buildState, getTally_buildState]
  unfold winCount lossCount
  rw [h.countP_eq, h.countP_eq]

theorem buildState_fst_perm (rows1 rows2 : List GameRow) (h : rows1.Perm rows2) :
    ((buildState rows1).1).Perm (buildState rows2).1 := by
  rw [buildState_fst, buildState_fst]
  exact h.filter played

theorem mem_teamKeys_perm (rows1 rows2 : List GameRow) (h : rows1.Perm rows2) (t : String) :
    t ∈ teamKeys rows1 ↔ t ∈ teamKeys rows2 := by
  rw [mem_teamKeys, mem_teamKeys]
  constructor
  · rintro ⟨g, hg, rest⟩
    exact ⟨g, h.mem_iff.mp hg, rest⟩
  · rintro ⟨g, hg, rest⟩
    exact ⟨g, h.mem_iff.mpr hg, rest⟩

theorem teamKeys_perm (rows1 rows2 : List GameRow) (h : rows1.Perm rows2) :
    (teamKeys rows1).Perm (teamKeys rows2) :=
  (List.perm_ext_iff_of_nodup (nodup_teamKeys rows1) (nodup_teamKeys rows2)).mpr
    (fun a => mem_teamKeys_perm rows1 rows2 h a)

theorem oppWinSum_congr_perm (s1 s2 : TallyMap) (t : String) (gs1 gs2 : List GameRow)
    (hget : ∀ x, getTally s1 x = getTally s2 x) (hperm : gs1.Perm gs2) :
    oppWinSum s1 t gs1 = oppWinSum s2 t gs2 := by
  unfold oppWinSum gamesOfTeam
  have hfun : (fun g => (getTally s1 (oppOf t g)).wins) =
      (fun g => (getTally s2 (oppOf t g)).wins) := funext (fun g => by rw [hget])
  rw [hfun]
  exact ((hperm.filter _).map _).sum_eq

theorem oppLossSum_congr_perm (s1 s2 : TallyMap) (t : String) (gs1 gs2 : List GameRow)
    (hget : ∀ x, getTally s1 x = getTally s2 x) (hperm : gs1.Perm gs2) :
    oppLossSum s1 t gs1 = oppLossSum s2 t gs2 := by
  unfold oppLossSum gamesOfTeam
  have hfun : (fun g => (getTally s1 (oppOf t g)).losses) =
      (fun g => (getTally s2 (oppOf t g)).losses) := funext (fun g => by rw [hget])
  rw [hfun]
  exact ((hperm.filter _).map _).sum_eq

theorem defWinSum_congr_perm (s1 s2 : TallyMap) (t : String) (gs1 gs2 : List GameRow)
    (hget : ∀ x, getTally s1 x = getTally s2 x) (hperm : gs1.Perm gs2) :
    defWinSum s1 t gs1 = defWinSum s2 t gs2 := by
  unfold defWinSum gamesOfTeam
  have hfun : (fun g => (getTally s1 (oppOf t g)).wins) =
      (fun g => (getTally s2 (oppOf t g)).wins) := funext (fun g => by rw [hget])
  rw [hfun]
  exact (((hperm.filter _).filter _).map _).sum_eq

theorem defLossSum_congr_perm (s1 s2 : TallyMap) (t : String) (gs1 gs2 : List GameRow)
    (hget : ∀ x, getTally s1 x = getTally s2 x) (hperm : gs1.Perm gs2) :
    defLossSum s1 t gs1 = defLossSum s2 t gs2 := by
  unfold defLossSum gamesOfTeam
  have hfun : (fun g => (getTally s1 (oppOf t g)).losses) =
      (fun g => (getTally s2 (oppOf t g)).losses) := funext (fun g => by rw [hget])
  rw [hfun]
  exact (((hperm.filter _).filter _).map _).sum_eq

theorem teamSoS_congr_perm (s1 s2 : TallyMap) (t : String) (gs1 gs2 : List GameRow)
    (hget : ∀ x, getTally s1 x = getTally s2 x) (hperm : gs1.Perm gs2) :
    teamSoS s1 gs1 t = teamSoS s2 gs2 t := by
  rw [teamSoS_eq_specSoS, teamSoS_eq_specSoS]
  unfold specSoS
  rw [oppGameSum_eq, oppGameSum_eq, oppWinSum_congr_perm s1 s2 t gs1 gs2 hget hperm,
    oppLossSum_congr_perm s1 s2 t gs1 gs2 hget hperm]

theorem teamSoV_congr_perm (s1 s2 : TallyMap) (t : String) (gs1 gs2 : List GameRow)
    (hget : ∀ x, getTally s1 x = getTally s2 x) (hperm : gs1.Perm gs2) :
    teamSoV s1 gs1 t = teamSoV s2 gs2 t := by
  rw [teamSoV_eq_specSoV, teamSoV_eq_specSoV]
  unfold specSoV
  rw [defGameSum_eq, defGameSum_eq, defWinSum_congr_perm s1 s2 t gs1 gs2 hget hperm,
    defLossSum_congr_perm s1 s2 t gs1 gs2 hget hperm]

theorem mkStanding_congr_perm (s1 s2 : TallyMap) (gs1 gs2 : List GameRow)
    (hget : ∀ x, getTally s1 x = getTally s2 x) (hperm : gs1.Perm gs2) :
    mkStanding s1 gs1 = mkStanding s2 gs2 := by
  funext t
  unfold mkStanding
  rw [hget t, teamSoS_congr_perm s1 s2 t gs1 gs2 hget hperm,
    teamSoV_congr_perm s1 s2 t gs1 gs2 hget hperm]

theorem divTeams_perm (ord1 ord2 : List String) (s1 s2 : TallyMap) (gs1 gs2 : List GameRow)
    (hord : ord1.Perm ord2) (hget : ∀ x, getTally s1 x = getTally s2 x)
    (hperm : gs1.Perm gs2) (d : String) :
    (divTeams ord1 s1 gs1 d).Perm (divTeams ord2 s2 gs2 d) := by
  unfold divTeams
  rw [mkStanding_congr_perm s1 s2 gs1 gs2 hget hperm]
  exact (hord.map _).filter _

theorem rankedDiv_strip_perm (ord1 ord2 : List String) (s1 s2 : TallyMap)
    (gs1 gs2 : List GameRow) (hord : ord1.Perm ord2)
    (hget : ∀ x, getTally s1 x = getTally s2 x) (hperm : gs1.Perm gs2) (d : String) :
    ((rankedDiv ord1 s1 gs1 d).map stripPos).Perm ((rankedDiv ord2 s2 gs2 d).map stripPos) := by
  unfold rankedDiv
  rw [map_stripPos_assignPos, map_stripPos_assignPos]
  have h1 := (sortBy_perm standLE (divTeams ord1 s1 gs1 d)).map stripPos
  have h2 := (sortBy_perm standLE (divTeams ord2 s2 gs2 d)).map stripPos
  have h3 := (divTeams_perm ord1 ord2 s1 s2 gs1 gs2 hord hget hperm d).map stripPos
  exact h1.trans (h3.trans h2.symm)

theorem isEmpty_eq_of_perm {β : Type _} (l1 l2 : List β) (h : l1.Perm l2) :
    l1.isEmpty = l2.isEmpty := by
  cases l1 with
  | nil =>
    have h2 : l2 = [] := h.symm.eq_nil
    rw [h2]
  | cons a l =>
    cases l2 with
    | nil => exact absurd h.eq_nil (by simp)
    | cons b m => rfl

theorem forall2_filterMap_ite {β γ : Type _} (R : γ → γ → Prop) (p1 p2 : β → Bool)
    (f1 f2 : β → γ) (ds : List β)
    (hp : ∀ d ∈ ds, p1 d = p2 d) (hf : ∀ d ∈ ds, p1 d = false → R (f1 d) (f2 d)) :
    List.Forall₂ R (ds.filterMap (fun d => if p1 d then none else some (f1 d)))
      (ds.filterMap (fun d => if p2 d then none else some (f2 d))) := by
  induction ds with
  | nil => simp
  | cons d ds ih =>
    rw [List.filterMap_cons, List.filterMap_cons]
    have hpd := hp d (List.mem_cons_self _ _)
    by_cases h : p1 d
    · rw [if_pos h, if_pos (show p2 d = true by rw [← hpd]; exact h)]
      exact ih (fun x hx => hp x (List.mem_cons_of_mem _ hx))
        (fun x hx => hf x (List.mem_cons_of_mem _ hx))
    · rw [if_neg h, if_neg (show ¬ p2 d = true by rw [← hpd]; exact h)]
      exact List.Forall₂.cons (hf d (List.mem_cons_self _ _) (by simpa using h))
        (ih (fun x hx => hp x (List.mem_cons_of_mem _ hx))
          (fun x hx => hf x (List.mem_cons_of_mem _ hx)))

theorem scoreboard_forall2 (rows1 rows2 : List GameRow) (ord1 ord2 : List String)
    (hr : rows1.Perm rows2) (h1 : ord1.Perm (teamKeys rows1))
    (h2 : ord2.Perm (teamKeys rows2)) :
    List.Forall₂ (fun da db => da.division = db.division ∧
        ((da.teams.map stripPos).Perm (db.teams.map stripPos)))
      (getScoreboardFrom rows1 ord1) (getScoreboardFrom rows2 ord2) := by
  have hget : ∀ x, getTally (buildState rows1).2 x = getTally (buildState rows2).2 x :=
    getTally_buildState_perm rows1 rows2 hr
  have hgames := buildState_fst_perm rows1 rows2 hr
  have hord : ord1.Perm ord2 := h1.trans ((teamKeys_perm rows1 rows2 hr).trans h2.symm)
  simp only [getScoreboardFrom]
  refine forall2_filterMap_ite _ _ _ _ _ _ ?_ ?_
  · intro d _
    exact isEmpty_eq_of_perm _ _
      (divTeams_perm ord1 ord2 _ _ _ _ hord hget hgames d)
  · intro d _ _
    exact ⟨rfl, rankedDiv_strip_perm ord1 ord2 _ _ _ _ hord hget hgames d⟩

theorem forall2_map_eq {β γ : Type _} (f : β → γ) (R : β → β → Prop)
    (hR : ∀ a b, R a b → f a = f b) :
    ∀ l1 l2, List.Forall₂ R l1 l2 → l1.map f = l2.map f := by
  intro l1 l2 h
  induction h with
  | nil => rfl
  | cons hab hrest ih =>
    simp only [List.map_cons]
    rw [hR _ _ hab, ih]

theorem map_division_eq_of_perm (rows1 rows2 : List GameRow) (ord1 ord2 : List String)
    (hr : rows1.Perm rows2) (h1 : ord1.Perm (teamKeys rows1))
    (h2 : ord2.Perm (teamKeys rows2)) :
    (getScoreboardFrom rows1 ord1).map (fun dd => dd.division) =
      (getScoreboardFrom rows2 ord2).map (fun dd => dd.division) :=
  forall2_map_eq _ _ (fun _ _ hab => hab.1) _ _ (scoreboard_forall2 rows1 rows2 ord1 ord2 hr h1 h2)

/-- C1 counterexample: one played game between two teams absent from the
division mapping.  The winning team has a tally and is assigned UNKNOWN, yet
the emitted standings are empty — the team does not appear, ranked or not,
in the output of getScoreboard. -/
theorem C1_unknown_counterexample :
    "Foobar FC" ∈ teamKeys (scoreboardRows c1Store) ∧
    teamDivisions "Foobar FC" = "" ∧
    divisionOf "Foobar FC" = "UNKNOWN" ∧
    c1Ord.Perm (teamKeys (scoreboardRows c1Store)) ∧
    getScoreboard c1Store c1Ord = [] :=
  ⟨by decide, by decide, by decide, by decide, by decide⟩

/-- C1 (amended): a team absent from the division mapping is assigned the
catch-all division "UNKNOWN" and receives a 1-based rank inside the UNKNOWN
group that the code builds and sorts, but the emitted standings contain only
the four canonical divisions, so the team never appears in the emitted
output of getScoreboard. -/
theorem C1_unknown_ranked_but_omitted (rows : List GameRow) (ord : List String) (t : String)
    (hk : t ∈ teamKeys rows) (hord : ord.Perm (teamKeys rows))
    (hdiv : teamDivisions t = "") :
    divisionOf t = "UNKNOWN" ∧
    (∃ s, s ∈ rankedDiv ord (buildState rows).2 (buildState rows).1 "UNKNOWN" ∧
        s.teamName = t ∧ 1 ≤ s.position) ∧
    (∀ dd ∈ getScoreboardFrom rows ord, t ∉ dd.teams.map (fun s => s.teamName)) := by
  have hu : divisionOf t = "UNKNOWN" := by
    unfold divisionOf
    rw [if_pos hdiv]
  have htord : t ∈ ord := hord.mem_iff.mpr hk
  refine ⟨hu, ?_, ?_⟩
  · have hh := exists_mem_rankedDiv ord (buildState rows).2 (buildState rows).1 t htord
    rw [hu] at hh
    exact hh
  · intro dd hdd hmem
    rcases (mem_getScoreboardFrom rows ord dd).mp hdd with ⟨d, hd, he, rfl⟩
    rcases List.mem_map.mp hmem with ⟨s, hs, hname⟩
    rcases mem_rankedDiv ord _ _ d s hs with ⟨u, hu', hnm, _, hdu, _⟩
    have hut : u = t := by rw [← hnm, hname]
    rw [hut, hu] at hdu
    rw [← hdu] at hd
    revert hd
    decide

/-- C1 witness for the amended statement, at the concrete unmapped team. -/
theorem C1_unknown_ranked_but_omitted_witness :
    ("Foobar FC" ∈ teamKeys (scoreboardRows c1Store) ∧
      c1Ord.Perm (teamKeys (scoreboardRows c1Store)) ∧
      teamDivisions "Foobar FC" = "") ∧
    (divisionOf "Foobar FC" = "UNKNOWN" ∧
      (∃ s, s ∈ rankedDiv c1Ord (buildState (scoreboardRows c1Store)).2
          (buildState (scoreboardRows c1Store)).1 "UNKNOWN" ∧
        s.teamName = "Foobar FC" ∧ 1 ≤ s.position) ∧
      (∀ dd ∈ getScoreboardFrom (scoreboardRows c1Store) c1Ord,
        "Foobar FC" ∉ dd.teams.map (fun s => s.teamName))) :=
  ⟨⟨by decide, by decide, by decide⟩,
    C1_unknown_ranked_but_omitted (scoreboardRows c1Store) c1Ord "Foobar FC"
      (by decide) (by decide) (by decide)⟩

/-- C3 counterexample: Vienna and Prague are tied 1-0 in EAST (Stuttgart and
Paris tied 0-1 in WEST); two iteration orders of the teamStats map — both
permutations of its keys, as the Go runtime may produce on two different
calls — give different emitted standings. -/
theorem C3_determinism_counterexample :
    c3OrdA.Perm (teamKeys (scoreboardRows c3Store)) ∧
    c3OrdB.Perm (teamKeys (scoreboardRows c3Store)) ∧
    getScoreboard c3Store c3OrdA ≠ getScoreboard c3Store c3OrdB :=
  ⟨by decide, by decide, by decide⟩

/-- C3 (amended): for a fixed snapshot the emitted division sequence, each
division's membership, and every team's wins, losses, record, SoS and SoV
are the same on every call; only the relative order — and hence the rank
positions — of teams tied on wins and losses may differ between two calls,
following the map iteration order. -/
theorem C3_deterministic_up_to_tie_order (st : Store) (ord1 ord2 : List String)
    (h1 : ord1.Perm (teamKeys (scoreboardRows st)))
    (h2 : ord2.Perm (teamKeys (scoreboardRows st))) :
    (getScoreboard st ord1).map (fun dd => dd.division) =
      (getScoreboard st ord2).map (fun dd => dd.division) ∧
    List.Forall₂ (fun da db => da.division = db.division ∧
        ((da.teams.map stripPos).Perm (db.teams.map stripPos)))
      (getScoreboard st ord1) (getScoreboard st ord2) :=
  ⟨map_division_eq_of_perm _ _ _ _ (List.Perm.refl _) h1 h2,
    scoreboard_forall2 _ _ _ _ (List.Perm.refl _) h1 h2⟩

/-- C3 witness for the amended statement, on a one-game store. -/
theorem C3_deterministic_up_to_tie_order_witness :
    ((["Madrid Bravos", "Munich Ravens"] : List String).Perm
        (teamKeys (scoreboardRows c3wStore)) ∧
      (["Munich Ravens", "Madrid Bravos"] : List String).Perm
        (teamKeys (scoreboardRows c3wStore))) ∧
    ((getScoreboard c3wStore ["Madrid Bravos", "Munich Ravens"]).map (fun dd => dd.division) =
        (getScoreboard c3wStore ["Munich Ravens", "Madrid Bravos"]).map (fun dd => dd.division) ∧
      List.Forall₂ (fun da db => da.division = db.division ∧
          ((da.teams.map stripPos).Perm (db.teams.map stripPos)))
        (getScoreboard c3wStore ["Madrid Bravos", "Munich Ravens"])
        (getScoreboard c3wStore ["Munich Ravens", "Madrid Bravos"])) :=
  ⟨⟨by decide, by decide⟩,
    C3_deterministic_up_to_tie_order c3wStore _ _ (by decide) (by decide)⟩

/-- C10: a team all of whose played games ended in ties receives no tally
entry at all and is absent from every emitted division, while its tied
played games are retained in the games slice that feeds opponents' SoS
sums. -/
theorem C10_tied_team_absent (rows : List GameRow) (t : String) (ord : List String)
    (hord : ord.Perm (teamKeys rows))
    (hties : ∀ g ∈ rows, played g = true → g.homeTeam = t ∨ g.awayTeam = t →
      g.homeScore = g.awayScore) :
    t ∉ teamKeys rows ∧
    (∀ dd ∈ getScoreboardFrom rows ord, t ∉ dd.teams.map (fun s => s.teamName)) ∧
    (∀ g ∈ rows, played g = true → g ∈ (buildState rows).1) := by
  have hkey : t ∉ teamKeys rows := by
    rw [mem_teamKeys]
    rintro ⟨g, hg, hp, hwl⟩
    have heq : g.homeScore = g.awayScore := by
      apply hties g hg hp
      rcases hwl with hw | hl
      · unfold winner at hw
        by_cases hc1 : g.awayScore < g.homeScore
        · rw [if_pos hc1] at hw
          exact Or.inl (by simpa using hw)
        · rw [if_neg hc1] at hw
          by_cases hc2 : g.homeScore < g.awayScore
          · rw [if_pos hc2] at hw
            exact Or.inr (by simpa using hw)
          · rw [if_neg hc2] at hw
            exact absurd hw (by simp)
      · unfold loser at hl
        by_cases hc1 : g.awayScore < g.homeScore
        · rw [if_pos hc1] at hl
          exact Or.inr (by simpa using hl)
        · rw [if_neg hc1] at hl
          by_cases hc2 : g.homeScore < g.awayScore
          · rw [if_pos hc2] at hl
            exact Or.inl (by simpa using hl)
          · rw [if_neg hc2] at hl
            exact absurd hl (by simp)
    rcases hwl with hw | hl
    · unfold winner at hw
      rw [if_neg (by omega), if_neg (by omega)] at hw
      exact absurd hw (by simp)
    · unfold loser at hl
      rw [if_neg (by omega), if_neg (by omega)] at hl
      exact absurd hl (by simp)
  refine ⟨hkey, ?_, ?_⟩
  · intro dd hdd hmem
    have htord : t ∉ ord := fun ht => hkey (hord.mem_iff.mp ht)
    rcases (mem_getScoreboardFrom rows ord dd).mp hdd with ⟨d, hd, he, rfl⟩
    rcases List.mem_map.mp hmem with ⟨s, hs, hname⟩
    rcases mem_rankedDiv ord _ _ d s hs with ⟨u, hu, hnm, _, _, _⟩
    apply htord
    have hut : u = t := by rw [← hnm, hname]
    rw [← hut]
    exact hu
  · intro g hg hp
    rw [buildState_fst]
    exact List.mem_filter.mpr ⟨hg, hp⟩

/-- C10 witness: Vienna's only played game is a 7-7 tie. -/
theorem C10_tied_team_absent_witness :
    ((teamKeys c10Rows).Perm (teamKeys c10Rows) ∧
      (∀ g ∈ c10Rows, played g = true →
        g.homeTeam = "Vienna Vikings" ∨ g.awayTeam = "Vienna Vikings" →
        g.homeScore = g.awayScore)) ∧
    ("Vienna Vikings" ∉ teamKeys c10Rows ∧
      (∀ dd ∈ getScoreboardFrom c10Rows (teamKeys c10Rows),
        "Vienna Vikings" ∉ dd.teams.map (fun s => s.teamName)) ∧
      (∀ g ∈ c10Rows, played g = true → g ∈ (buildState c10Rows).1)) :=
  ⟨⟨by decide, by decide⟩,
    C10_tied_team_absent c10Rows "Vienna Vikings" (teamKeys c10Rows)
      (by decide) (by decide)⟩

/-- C7: within each emitted division the standings are pairwise ordered by
descending wins then ascending losses and the rank positions are exactly
1..n in that order; the emitted division names are the canonical sequence
EAST, WEST, NORTH, SOUTH with divisions holding no team omitted; and the
emitted division sequence does not depend on the order in which the games
were inserted. -/
theorem C7_division_order_and_sorting (rows rows2 : List GameRow) (ord ord2 : List String)
    (hr : rows.Perm rows2) (h1 : ord.Perm (teamKeys rows))
    (h2 : ord2.Perm (teamKeys rows2)) :
    (∀ dd ∈ getScoreboardFrom rows ord,
        dd.teams.Pairwise rankOrdered ∧
        dd.teams.map (fun s => s.position) = List.range' 1 dd.teams.length ∧
        dd.division ∈ canonicalDivisions ∧ dd.teams ≠ []) ∧
    ((getScoreboardFrom rows ord).map (fun dd => dd.division) =
        canonicalDivisions.filter
          (fun d => !(divTeams ord (buildState rows).2 (buildState rows).1 d).isEmpty)) ∧
    ((getScoreboardFrom rows ord).map (fun dd => dd.division) =
        (getScoreboardFrom rows2 ord2).map (fun dd => dd.division)) := by
  refine ⟨?_, map_division_getScoreboardFrom rows ord,
    map_division_eq_of_perm rows rows2 ord ord2 hr h1 h2⟩
  intro dd hdd
  rcases (mem_getScoreboardFrom rows ord dd).mp hdd with ⟨d, hd, he, rfl⟩
  refine ⟨pairwise_rankedDiv _ _ _ _, map_position_rankedDiv _ _ _ _, hd, ?_⟩
  intro hnil
  have hlen : (rankedDiv ord (buildState rows).2 (buildState rows).1 d).length = 0 := by
    rw [show (rankedDiv ord (buildState rows).2 (buildState rows).1 d) = [] from hnil]
    rfl
  unfold rankedDiv at hlen
  rw [length_assignPos, length_sortBy] at hlen
  have hdt : divTeams ord (buildState rows).2 (buildState rows).1 d = [] :=
    List.length_eq_zero.mp hlen
  rw [hdt] at he
  simp at he

/-- C7 witness: two insertions of the same two games in opposite orders,
with the corresponding key iteration orders. -/
theorem C7_division_order_and_sorting_witness :
    (c7Rows.Perm c7RowsRev ∧ (teamKeys c7Rows).Perm (teamKeys c7Rows) ∧
      (teamKeys c7RowsRev).Perm (teamKeys c7RowsRev)) ∧
    ((∀ dd ∈ getScoreboardFrom c7Rows (teamKeys c7Rows),
        dd.teams.Pairwise rankOrdered ∧
        dd.teams.map (fun s => s.position) = List.range' 1 dd.teams.length ∧
        dd.division ∈ canonicalDivisions ∧ dd.teams ≠ []) ∧
      ((getScoreboardFrom c7Rows (teamKeys c7Rows)).map (fun dd => dd.division) =
          canonicalDivisions.filter
            (fun d => !(divTeams (teamKeys c7Rows) (buildState c7Rows).2
                (buildState c7Rows).1 d).isEmpty)) ∧
      ((getScoreboardFrom c7Rows (teamKeys c7Rows)).map (fun dd => dd.division) =
          (getScoreboardFrom c7RowsRev (teamKeys c7RowsRev)).map (fun dd => dd.division))) :=
  ⟨⟨by decide, by decide, by decide⟩,
    C7_division_order_and_sorting c7Rows c7RowsRev (teamKeys c7Rows) (teamKeys c7RowsRev)
      (by decide) (by decide) (by decide)⟩
